import Mathlib

/-!
# Verification of the sensor data-collector pipeline

Shallow embedding, in Lean 4, of the acquisition-and-delivery pipeline of
the `data_sensor_collector` repository: the multiplexer driver (`mux.py`),
the two sensor drivers (`board/utils/sensors.py`), the SD-card log sink
(`board/utils/sd_manager.py`), the BLE delivery sink
(`board/utils/ble_sender.py`) and the scheduling loop (`master.py`).

Machine bytes are modelled as `Nat` with explicit masking (`% 256` for the
source's `crc &= 0xFF`); Python floats are modelled as exact rationals `ℚ`;
code that raises is modelled with `Except`/`Option` or an explicit ok-flag
next to the mutated state.  I2C traffic is modelled by a register-read
oracle, and each embedded driver operation additionally returns the list
of hardware transactions it issued, so that "touches no hardware" is a
provable statement.
-/

namespace DataSensor

/-! ## Multiplexer driver (`mux.py`)

GPIO state is the value of the enable pin plus the values of the four
control pins.  `Multiplexer.__init__` ends in `disable()`, which drives the
enable pin to 1; `enable()` drives it to 0. -/

/-- GPIO state owned by the multiplexer: enable-pin level and the four
control-pin levels (S3..S0, most significant first, matching
`"{:04b}".format(channel)` zipped against `control_pins`). -/
structure MuxState where
  en : Nat
  control : List Nat
  deriving Repr, DecidableEq

/-- The idle state `Multiplexer.__init__` leaves behind: `disable()` sets the
enable pin to 1; the four control pins start as outputs (level 0). -/
def muxInit : MuxState := { en := 1, control := [0, 0, 0, 0] }

/-- The four binary digits of `"{:04b}".format(channel)`, most significant
first, as pin levels. -/
def bits4 (n : Nat) : List Nat :=
  [n / 8 % 2, n / 4 % 2, n / 2 % 2, n % 2]

/-- `Multiplexer.select_channel`: raises `ValueError` when the channel is
outside `[0, 15]` (before touching any pin); otherwise calls `enable()`
(enable pin low) and writes the 4-bit address across the control pins.
The returned `Except` is `error` exactly when the source raises, and the
returned state is the GPIO state after the call. -/
def select_channel (st : MuxState) (channel : Int) : MuxState × Except String Unit :=
  if ¬ (0 ≤ channel ∧ channel ≤ 15) then
    (st, .error "Channel must be between 0 and 15")
  else
    ({ en := 0, control := bits4 channel.toNat }, .ok ())

/-! ## SCD40 CO2/temperature/humidity driver (`sensors.py`, `SCD40Sensor`) -/

/-- One round of the inner bit loop of `SCD40Sensor.crc8`: shift left, XOR
with the polynomial `0x31` when the top bit was set, and mask to 8 bits
(the source's `crc &= 0xFF`). -/
def crcBit (crc : Nat) : Nat :=
  if crc &&& 0x80 ≠ 0 then ((crc <<< 1) ^^^ 0x31) % 256
  else (crc <<< 1) % 256

/-- `SCD40Sensor.crc8`: initial value `0xFF`; each byte is XORed into the
running CRC and followed by eight rounds of `crcBit`. -/
def crc8 (data : List Nat) : Nat :=
  data.foldl (fun crc byte => crcBit^[8] (crc ^^^ byte)) 0xFF

/-- Reference bit-serial CRC-8 step (polynomial `0x31`, MSB first, no
reflection): the incoming message bit is compared against the CRC's top
bit; on mismatch the shifted CRC is XORed with the polynomial. -/
def refStep (crc : Nat) (m : Bool) : Nat :=
  if (crc.testBit 7) ≠ m then ((crc <<< 1) ^^^ 0x31) % 256
  else (crc <<< 1) % 256

/-- The eight bits of a byte, most significant first. -/
def byteBits (b : Nat) : List Bool :=
  [b.testBit 7, b.testBit 6, b.testBit 5, b.testBit 4,
   b.testBit 3, b.testBit 2, b.testBit 1, b.testBit 0]

/-- Reference CRC-8 (polynomial `0x31`, init `0xFF`, no input/output
reflection), defined bit-serially over the message bits MSB-first,
independently of the source's byte-at-a-time loop. -/
def crc8_ref (data : List Nat) : Nat :=
  ((data.map byteBits).flatten).foldl refStep 0xFF

/-! ### GF(2) algebra of the CRC step -/

lemma xor_left_comm (a b c : Nat) : a ^^^ (b ^^^ c) = b ^^^ (a ^^^ c) := by
  rw [← Nat.xor_assoc, Nat.xor_comm a b, Nat.xor_assoc]

lemma testBit_128 (i : Nat) : Nat.testBit 128 i = decide (7 = i) := by
  rw [show (128 : Nat) = 2 ^ 7 from by norm_num, Nat.testBit_two_pow]

lemma and128 (x : Nat) : x &&& 128 = if x.testBit 7 then 128 else 0 := by
  apply Nat.eq_of_testBit_eq
  intro i
  by_cases hi : i = 7
  · subst hi; cases h : x.testBit 7 <;> simp [Nat.testBit_and, h, testBit_128]
  · cases h : x.testBit 7 <;>
      simp [Nat.testBit_and, h, testBit_128, Ne.symm hi]

lemma and128_ne (x : Nat) : (x &&& 128 ≠ 0) ↔ x.testBit 7 = true := by
  rw [and128]; cases h : x.testBit 7 <;> simp

lemma crcBit_eq (x : Nat) :
    crcBit x = if x.testBit 7 then ((x <<< 1) ^^^ 0x31) % 256 else (x <<< 1) % 256 := by
  unfold crcBit
  cases h : x.testBit 7
  · rw [if_neg, if_neg] <;> simp [and128_ne, h]
  · rw [if_pos, if_pos] <;> simp [and128_ne, h]

lemma shiftLeft_one_xor (a b : Nat) : (a ^^^ b) <<< 1 = (a <<< 1) ^^^ (b <<< 1) := by
  apply Nat.eq_of_testBit_eq
  intro i
  simp only [Nat.testBit_shiftLeft, Nat.testBit_xor]
  by_cases h : 1 ≤ i <;> simp [h]

lemma xor_mod256 (a b : Nat) : (a % 256) ^^^ (b % 256) = (a ^^^ b) % 256 := by
  have h : ∀ x : Nat, x % 256 = x % 2 ^ 8 := fun x => by norm_num
  rw [h, h, h]
  apply Nat.eq_of_testBit_eq
  intro i
  simp only [Nat.testBit_mod_two_pow, Nat.testBit_xor]
  by_cases hi : i < 8 <;> simp [hi]

lemma crcBit_eq2 (x : Nat) :
    crcBit x = ((x <<< 1) % 256) ^^^ (cond (x.testBit 7) 49 0) := by
  rw [crcBit_eq]
  cases h : x.testBit 7
  · simp [h]
  · rw [if_pos (rfl : true = true), cond_true, ← xor_mod256]

lemma cond49_xor (a b : Bool) :
    (cond (a ^^ b) 49 0 : Nat) = cond a 49 0 ^^^ cond b 49 0 := by
  cases a <;> cases b <;> decide

/-- The CRC bit round is GF(2)-linear. -/
lemma crcBit_xor (x y : Nat) : crcBit (x ^^^ y) = crcBit x ^^^ crcBit y := by
  rw [crcBit_eq2, crcBit_eq2, crcBit_eq2, Nat.testBit_xor, cond49_xor,
    shiftLeft_one_xor, ← xor_mod256]
  simp only [Nat.xor_assoc]
  rw [xor_left_comm ((cond (x.testBit 7) 49 0 : Nat)) (y <<< 1 % 256)]

lemma crcBit_iter_xor (n x y : Nat) :
    crcBit^[n] (x ^^^ y) = crcBit^[n] x ^^^ crcBit^[n] y := by
  induction n generalizing x y with
  | zero => rfl
  | succ k ih => rw [Function.iterate_succ_apply, Function.iterate_succ_apply,
      Function.iterate_succ_apply, crcBit_xor, ih]

lemma crcBit_small {b : Nat} (h : b < 128) : crcBit b = b <<< 1 := by
  rw [crcBit_eq, if_neg, Nat.mod_eq_of_lt]
  · rw [Nat.shiftLeft_eq]; omega
  · simp [Nat.testBit_lt_two_pow (show b < 2 ^ 7 by omega)]

lemma crcBit_cond128 (m : Bool) : crcBit (cond m 128 0) = cond m 49 0 := by
  cases m <;> decide

lemma refStep_eq_crcBit (c : Nat) (m : Bool) :
    refStep c m = crcBit (c ^^^ (cond m 128 0)) := by
  rw [crcBit_xor, crcBit_cond128, crcBit_eq2]
  unfold refStep
  cases h : c.testBit 7 <;> cases m <;>
    simp [h, ← xor_mod256, Nat.xor_assoc]

/-- Value of a bit string, MSB first. -/
def bitsVal : List Bool → Nat
  | [] => 0
  | m :: ms => ((cond m 1 0) <<< ms.length) ^^^ bitsVal ms

lemma shiftLeft_xor (a b k : Nat) : (a ^^^ b) <<< k = (a <<< k) ^^^ (b <<< k) := by
  apply Nat.eq_of_testBit_eq
  intro i
  simp only [Nat.testBit_shiftLeft, Nat.testBit_xor]
  by_cases h : k ≤ i <;> simp [h]

lemma bitsVal_lt : ∀ ms : List Bool, bitsVal ms < 2 ^ ms.length
  | [] => by simp [bitsVal]
  | m :: ms => by
    have ih := bitsVal_lt ms
    have h1 : (cond m 1 0) <<< ms.length < 2 ^ (ms.length + 1) := by
      cases m
      · simp [Nat.shiftLeft_eq]
      · simp [Nat.shiftLeft_eq, Nat.pow_succ]
    have h2 : bitsVal ms < 2 ^ (ms.length + 1) :=
      lt_trans ih (Nat.pow_lt_pow_right one_lt_two (Nat.lt_succ_self _))
    exact Nat.xor_lt_two_pow h1 h2

/-- XORing a bit string into the top of the CRC register and running one
bit round per bit is the same as feeding the bits one at a time into the
reference step. -/
lemma iter_bits : ∀ (ms : List Bool) (c : Nat), ms.length ≤ 8 →
    crcBit^[ms.length] (c ^^^ (bitsVal ms <<< (8 - ms.length))) = List.foldl refStep c ms := by
  intro ms
  induction ms with
  | nil => intro c _; simp [bitsVal]
  | cons m tl ih =>
    intro c hlen
    have hL : tl.length ≤ 7 := by
      simpa [Nat.succ_le_succ_iff] using hlen
    have hsplit : bitsVal (m :: tl) <<< (8 - (m :: tl).length)
        = (cond m 128 0) ^^^ (bitsVal tl <<< (7 - tl.length)) := by
      show (((cond m 1 0) <<< tl.length) ^^^ bitsVal tl) <<< (8 - (tl.length + 1)) = _
      have h8 : 8 - (tl.length + 1) = 7 - tl.length := by omega
      rw [h8, shiftLeft_xor, ← Nat.shiftLeft_add]
      have h7 : tl.length + (7 - tl.length) = 7 := by omega
      rw [h7]
      cases m <;> simp
    have hlow : bitsVal tl <<< (7 - tl.length) < 128 := by
      have hb := bitsVal_lt tl
      rw [Nat.shiftLeft_eq]
      calc bitsVal tl * 2 ^ (7 - tl.length)
          < 2 ^ tl.length * 2 ^ (7 - tl.length) :=
            (Nat.mul_lt_mul_right (Nat.pos_pow_of_pos (7 - tl.length) (by norm_num))).mpr hb
        _ = 2 ^ 7 := by rw [← pow_add]; congr 1; omega
        _ = 128 := by norm_num
    rw [hsplit, List.length_cons, Function.iterate_succ_apply, ← Nat.xor_assoc,
      crcBit_xor, crcBit_small hlow, ← refStep_eq_crcBit, ← Nat.shiftLeft_add]
    have h81 : 7 - tl.length + 1 = 8 - tl.length := by omega
    rw [h81, ih (refStep c m) (by omega)]
    rfl

set_option maxRecDepth 2000 in
lemma bitsVal_byteBits : ∀ b < 256, bitsVal (byteBits b) = b := by decide

lemma crcByte_eq_ref (c b : Nat) (hb : b < 256) :
    crcBit^[8] (c ^^^ b) = (byteBits b).foldl refStep c := by
  have h := iter_bits (byteBits b) c (by rfl)
  rw [show (byteBits b).length = 8 from rfl, bitsVal_byteBits b hb] at h
  simpa using h

lemma crc8_eq_ref_aux : ∀ (data : List Nat) (c : Nat), (∀ b ∈ data, b < 256) →
    data.foldl (fun crc byte => crcBit^[8] (crc ^^^ byte)) c
      = ((data.map byteBits).flatten).foldl refStep c := by
  intro data
  induction data with
  | nil => intro c _; rfl
  | cons b tl ih =>
    intro c h
    simp only [List.foldl_cons, List.map_cons, List.flatten_cons, List.foldl_append]
    rw [crcByte_eq_ref c b (h b (List.mem_cons_self b tl))]
    exact ih _ (fun x hx => h x (List.mem_cons_of_mem _ hx))

/-- The source's byte-at-a-time CRC equals the bit-serial reference CRC on
every byte string. -/
lemma crc8_eq_crc8_ref (data : List Nat) (h : ∀ b ∈ data, b < 256) :
    crc8 data = crc8_ref data :=
  crc8_eq_ref_aux data 0xFF h

lemma crc8_pair (b0 b1 : Nat) :
    crc8 [b0, b1] = crcBit^[8] (crcBit^[8] (0xFF ^^^ b0) ^^^ b1) := rfl

/-- Flipping bits of the first byte shifts the CRC by a constant depending
only on the flipped bits. -/
lemma crc8_flip0 (b0 b1 e : Nat) :
    crc8 [b0 ^^^ e, b1] = crc8 [b0, b1] ^^^ crcBit^[16] e := by
  rw [crc8_pair, crc8_pair, ← Nat.xor_assoc, crcBit_iter_xor 8 (0xFF ^^^ b0) e,
    Nat.xor_assoc, Nat.xor_comm (crcBit^[8] e) b1, ← Nat.xor_assoc,
    crcBit_iter_xor 8 _ (crcBit^[8] e), ← Function.iterate_add_apply]

/-- Flipping bits of the second byte shifts the CRC by a constant depending
only on the flipped bits. -/
lemma crc8_flip1 (b0 b1 e : Nat) :
    crc8 [b0, b1 ^^^ e] = crc8 [b0, b1] ^^^ crcBit^[8] e := by
  rw [crc8_pair, crc8_pair, ← Nat.xor_assoc, crcBit_iter_xor 8 _ e]

lemma delta16_ne : ∀ j < 8, crcBit^[16] (1 <<< j) ≠ 0 := by decide

lemma delta8_ne : ∀ j < 8, crcBit^[8] (1 <<< j) ≠ 0 := by decide

lemma xor_ne_self {x d : Nat} (hd : d ≠ 0) : x ^^^ d ≠ x := by
  intro h
  apply hd
  calc d = x ^^^ (x ^^^ d) := (Nat.xor_cancel_left x d).symm
    _ = x ^^^ x := by rw [h]
    _ = 0 := Nat.xor_self x

end DataSensor

namespace DataSensor

/-- Python's `round(x, 2)`: round to 2 decimal places (the claims exercised
here are away from ties, so the tie-breaking rule is immaterial). -/
def round2 (x : ℚ) : ℚ := ((round (x * 100) : ℤ) : ℚ) / 100

namespace SCD40Sensor

/-- The inner `parse_word` of `SCD40Sensor.read_sensor`: the 2-byte word at
`start` is accepted only when its CRC-8 equals the received checksum byte
at `start + 2`; on mismatch the source raises (caught by the outer
`except`, modelled as `none`). -/
def parse_word (data : List Nat) (start : Nat) : Option Nat :=
  if crc8 [data.getD start 0, data.getD (start + 1) 0] = data.getD (start + 2) 0 then
    some ((data.getD start 0) <<< 8 ||| data.getD (start + 1) 0)
  else none

/-- `SCD40Sensor.read_sensor` applied to the 9-byte frame read from the
sensor: three checksummed words (CO2, temperature, humidity); any CRC
mismatch makes the whole read fail (`(None, None, None)` in the source,
`none` here — no partially-valid data), otherwise the three decoded values
are returned. -/
def read_sensor (data : List Nat) : Option (Nat × ℚ × ℚ) :=
  match parse_word data 0, parse_word data 3, parse_word data 6 with
  | some co2, some temp_raw, some rh_raw =>
      some (co2,
        round2 ((-45 : ℚ) + 175 * ((temp_raw : ℚ) / 65535)),
        round2 (100 * ((rh_raw : ℚ) / 65535)))
  | _, _, _ => none

end SCD40Sensor

/-- A word whose received checksum byte does not match the computed CRC is
rejected by `parse_word`. -/
lemma parse_word_eq_none {data : List Nat} {start : Nat}
    (h : crc8 [data.getD start 0, data.getD (start + 1) 0] ≠ data.getD (start + 2) 0) :
    SCD40Sensor.parse_word data start = none := by
  unfold SCD40Sensor.parse_word
  rw [if_neg h]

/-- C6: the driver's CRC8 (polynomial 0x31, init 0xFF, no reflection)
agrees with the bit-serial reference CRC on every 2-byte word; every
single-bit flip of a 2-byte word changes the computed CRC (bit `j` of
either byte); and a frame in which any word's received checksum byte does
not match the computed CRC makes `read_sensor` fail with no
partially-valid data. -/
theorem crc8_reference_and_bit_flip_detection :
    (∀ b0 b1 : Nat, b0 < 256 → b1 < 256 → crc8 [b0, b1] = crc8_ref [b0, b1])
    ∧ (∀ b0 b1 j : Nat, j < 8 →
        crc8 [b0 ^^^ (1 <<< j), b1] ≠ crc8 [b0, b1]
        ∧ crc8 [b0, b1 ^^^ (1 <<< j)] ≠ crc8 [b0, b1])
    ∧ (∀ data : List Nat,
        (crc8 [data.getD 0 0, data.getD 1 0] ≠ data.getD 2 0
          ∨ crc8 [data.getD 3 0, data.getD 4 0] ≠ data.getD 5 0
          ∨ crc8 [data.getD 6 0, data.getD 7 0] ≠ data.getD 8 0) →
        SCD40Sensor.read_sensor data = none) := by
  refine ⟨?_, ?_, ?_⟩
  · intro b0 b1 h0 h1
    apply crc8_eq_crc8_ref
    intro b hb
    simp only [List.mem_cons, List.not_mem_nil, or_false] at hb
    rcases hb with rfl | rfl <;> assumption
  · intro b0 b1 j hj
    constructor
    · rw [crc8_flip0]
      exact xor_ne_self (delta16_ne j hj)
    · rw [crc8_flip1]
      exact xor_ne_self (delta8_ne j hj)
  · intro data h
    have key : SCD40Sensor.parse_word data 0 = none
        ∨ SCD40Sensor.parse_word data 3 = none
        ∨ SCD40Sensor.parse_word data 6 = none := by
      rcases h with h | h | h
      · exact Or.inl (parse_word_eq_none (by simpa using h))
      · exact Or.inr (Or.inl (parse_word_eq_none (by simpa using h)))
      · exact Or.inr (Or.inr (parse_word_eq_none (by simpa using h)))
    unfold SCD40Sensor.read_sensor
    rcases key with k | k | k <;> rw [k] <;>
      cases hp0 : SCD40Sensor.parse_word data 0 <;>
      cases hp3 : SCD40Sensor.parse_word data 3 <;>
      cases hp6 : SCD40Sensor.parse_word data 6 <;> rfl

/-- Witness for C6 at concrete inputs: the word `0xBE 0xEF`, a bit flip in
each byte, and a frame whose first checksum byte is wrong. -/
theorem crc8_reference_and_bit_flip_detection_witness :
    crc8 [0xBE, 0xEF] = crc8_ref [0xBE, 0xEF]
    ∧ crc8 [0xBE ^^^ (1 <<< 3), 0xEF] ≠ crc8 [0xBE, 0xEF]
    ∧ crc8 [0xBE, 0xEF ^^^ (1 <<< 3)] ≠ crc8 [0xBE, 0xEF]
    ∧ SCD40Sensor.read_sensor [0, 0, 0, 0, 0, 0, 0, 0, 0] = none :=
  ⟨crc8_reference_and_bit_flip_detection.1 0xBE 0xEF (by decide) (by decide),
   (crc8_reference_and_bit_flip_detection.2.1 0xBE 0xEF 3 (by decide)).1,
   (crc8_reference_and_bit_flip_detection.2.1 0xBE 0xEF 3 (by decide)).2,
   crc8_reference_and_bit_flip_detection.2.2 [0, 0, 0, 0, 0, 0, 0, 0, 0]
     (Or.inl (by decide))⟩

end DataSensor

namespace DataSensor

/-- A word whose received checksum byte matches the computed CRC parses to
the big-endian 16-bit value of its two data bytes. -/
lemma parse_word_eq_some {data : List Nat} {start : Nat}
    (h : crc8 [data.getD start 0, data.getD (start + 1) 0] = data.getD (start + 2) 0) :
    SCD40Sensor.parse_word data start
      = some ((data.getD start 0) <<< 8 ||| data.getD (start + 1) 0) := by
  unfold SCD40Sensor.parse_word
  rw [if_pos h]

/-- C7: on every 9-byte frame whose three words pass CRC validation,
`read_sensor` returns the raw CO2 word as integer ppm, the temperature
decoded as `-45 + 175 * raw / 65535` and the relative humidity decoded as
`100 * raw / 65535`, both rounded to 2 decimal places; and the decode
formula sends raw temperature word 0 to -45.0 and raw word 65535 to
130.0. -/
theorem scd40_decode_formulas :
    (∀ data : List Nat,
      crc8 [data.getD 0 0, data.getD 1 0] = data.getD 2 0 →
      crc8 [data.getD 3 0, data.getD 4 0] = data.getD 5 0 →
      crc8 [data.getD 6 0, data.getD 7 0] = data.getD 8 0 →
      SCD40Sensor.read_sensor data
        = some ((data.getD 0 0) <<< 8 ||| data.getD 1 0,
            round2 ((-45 : ℚ)
              + 175 * ((((data.getD 3 0) <<< 8 ||| data.getD 4 0 : Nat) : ℚ) / 65535)),
            round2 (100 * ((((data.getD 6 0) <<< 8 ||| data.getD 7 0 : Nat) : ℚ) / 65535))))
    ∧ round2 ((-45 : ℚ) + 175 * ((0 : ℚ) / 65535)) = -45
    ∧ round2 ((-45 : ℚ) + 175 * ((65535 : ℚ) / 65535)) = 130 := by
  refine ⟨?_, by norm_num [round2, round_eq, Int.floor_eq_iff],
    by norm_num [round2, round_eq, Int.floor_eq_iff]⟩
  intro data h0 h3 h6
  unfold SCD40Sensor.read_sensor
  rw [parse_word_eq_some (by simpa using h0), parse_word_eq_some (by simpa using h3),
    parse_word_eq_some (by simpa using h6)]
  norm_num

/-- Witness for C7: a concrete valid frame (CO2 word 400 ppm, temperature
word 0, humidity word 32768, each followed by its correct CRC byte)
decodes to the claimed formulas. -/
theorem scd40_decode_formulas_witness :
    SCD40Sensor.read_sensor [1, 144, 76, 0, 0, 129, 128, 0, 162]
      = some (400,
          round2 ((-45 : ℚ) + 175 * ((0 : ℚ) / 65535)),
          round2 (100 * ((32768 : ℚ) / 65535))) := by
  have h := scd40_decode_formulas.1 [1, 144, 76, 0, 0, 129, 128, 0, 162]
    (by decide) (by decide) (by decide)
  simpa using h

/-- C9: `select_channel` on any channel outside `[0, 15]` raises a
`ValueError` and leaves the GPIO state (enable pin and all control pins)
unchanged; on any channel in `[0, 15]` it does not raise. -/
theorem select_channel_domain (st : MuxState) (channel : Int) :
    (¬ (0 ≤ channel ∧ channel ≤ 15) →
      (select_channel st channel).1 = st
      ∧ (select_channel st channel).2 = .error "Channel must be between 0 and 15")
    ∧ ((0 ≤ channel ∧ channel ≤ 15) → (select_channel st channel).2 = .ok ()) := by
  constructor
  · intro h
    unfold select_channel
    rw [if_pos h]
    exact ⟨rfl, rfl⟩
  · intro h
    unfold select_channel
    rw [if_neg (not_not_intro h)]

/-- Witness for C9: from the idle GPIO state, `select_channel 16` and
`select_channel (-1)` fail leaving the state unchanged, and
`select_channel 7` succeeds. -/
theorem select_channel_domain_witness :
    ((select_channel muxInit 16).1 = muxInit
      ∧ (select_channel muxInit 16).2 = .error "Channel must be between 0 and 15")
    ∧ ((select_channel muxInit (-1)).1 = muxInit
      ∧ (select_channel muxInit (-1)).2 = .error "Channel must be between 0 and 15")
    ∧ (select_channel muxInit 7).2 = .ok () :=
  ⟨(select_channel_domain muxInit 16).1 (by decide),
   (select_channel_domain muxInit (-1)).1 (by decide),
   (select_channel_domain muxInit 7).2 (by decide)⟩

end DataSensor

namespace DataSensor

/-! ## BLE delivery sink (`ble_sender.py`, `BLEPeripheral`)

The buffered entries are kept abstract in a type parameter `α` (the source
is dynamically typed).  `enableCalls` instruments the state with the number
of `enable_ble` invocations so that "the radio enable operation has been
invoked" is a provable statement; `txFails i` is the fault oracle saying
whether transmitting the `i`-th frame (`gatts_write`/`gatts_notify`)
raises. -/

/-- State of `BLEPeripheral`: the RetryBuffer `buffer`, the connection
handle (`none` = Disconnected), whether the radio is active
(`ble.active(...)`), whether advertising has been started, and the
instrumentation counter of `enable_ble` calls. -/
structure BLEState (α : Type) where
  buffer : List α
  conn_handle : Option Nat
  active : Bool
  advertising : Bool
  enableCalls : Nat
  deriving Repr, DecidableEq

/-- `BLEPeripheral.enable_ble`: `ble.active(True)`, reset `conn_handle` to
`None`, re-register the service and start advertising. -/
def enable_ble {α : Type} (st : BLEState α) : BLEState α :=
  { st with
    active := true
    conn_handle := none
    advertising := true
    enableCalls := st.enableCalls + 1 }

/-- `BLEPeripheral.shutdown_ble`: `ble.active(False)` to save power. -/
def shutdown_ble {α : Type} (st : BLEState α) : BLEState α :=
  { st with active := false }

/-- The frame grouping of `send_data`: `all_data[i:i+BATCH_SIZE]` for
`i = 0, 2, 4, ...` with `BATCH_SIZE = 2`. -/
def chunks2 {α : Type} : List α → List (List α)
  | [] => []
  | [a] => [[a]]
  | a :: b :: rest => [a, b] :: chunks2 rest

/-- The frame-transmission loop: frames are written and notified in order,
and the first frame whose transmission raises (per the fault oracle)
aborts the loop.  Returns the successfully transmitted frames and whether
the whole loop completed. -/
def sendFrames {α : Type} (txFails : Nat → Bool) : Nat → List (List α) → List (List α) × Bool
  | _, [] => ([], true)
  | i, f :: fs =>
    if txFails i then ([], false)
    else
      let (sent, ok) := sendFrames txFails (i + 1) fs
      (f :: sent, ok)

/-- `BLEPeripheral.send_data`.  Disconnected: append the whole batch to the
RetryBuffer and call `enable_ble`, transmitting nothing.  Connected:
append the batch to the RetryBuffer, group the entire buffer into frames
of at most 2 entries, and transmit them in order; if all succeed the
buffer is cleared and the radio shut down, and if any frame raises the
`except` branch appends the incoming batch once more to the (unshrunk)
buffer and leaves the radio state untouched.  Returns the new state and
the list of frames actually transmitted. -/
def send_data {α : Type} (st : BLEState α) (data : List α) (txFails : Nat → Bool) :
    BLEState α × List (List α) :=
  match st.conn_handle with
  | none => (enable_ble { st with buffer := st.buffer ++ data }, [])
  | some _ =>
    let all_data := st.buffer ++ data
    let frames := chunks2 all_data
    let (sent, ok) := sendFrames txFails 0 frames
    if ok then (shutdown_ble { st with buffer := [] }, sent)
    else ({ st with buffer := all_data ++ data }, sent)

lemma chunks2_flatten {α : Type} : ∀ l : List α, (chunks2 l).flatten = l
  | [] => rfl
  | [_] => rfl
  | a :: b :: rest => by
    simp only [chunks2, List.flatten_cons, chunks2_flatten rest]
    rfl

lemma chunks2_length_le {α : Type} : ∀ l : List α, ∀ c ∈ chunks2 l, c.length ≤ 2
  | [] => by intro c hc; simp [chunks2] at hc
  | [a] => by
    intro c hc
    simp only [chunks2, List.mem_singleton] at hc
    simp [hc]
  | a :: b :: rest => by
    intro c hc
    simp only [chunks2, List.mem_cons] at hc
    rcases hc with rfl | hc
    · simp
    · exact chunks2_length_le rest c hc

lemma chunks2_five {α : Type} (l : List α) (h : l.length = 5) :
    chunks2 l = [l.take 2, (l.drop 2).take 2, l.drop 4] := by
  match l, h with
  | [a, b, c, d, e], _ => rfl

lemma sendFrames_all_ok {α : Type} {txFails : Nat → Bool}
    (hf : ∀ i, txFails i = false) :
    ∀ (i : Nat) (fs : List (List α)), sendFrames txFails i fs = (fs, true) := by
  intro i fs
  induction fs generalizing i with
  | nil => rfl
  | cons f rest ih =>
    simp only [sendFrames, hf i, if_neg Bool.false_ne_true, ih (i + 1)]

end DataSensor

namespace DataSensor

/-- C4: `send_data` while Disconnected appends the whole incoming batch to
the RetryBuffer in order, invokes the radio enable operation (which leaves
the radio active and advertising), and transmits no frames. -/
theorem send_data_disconnected {α : Type} (st : BLEState α) (data : List α)
    (txFails : Nat → Bool) (h : st.conn_handle = none) :
    (send_data st data txFails).1.buffer = st.buffer ++ data
    ∧ (send_data st data txFails).1.enableCalls = st.enableCalls + 1
    ∧ (send_data st data txFails).1.active = true
    ∧ (send_data st data txFails).1.advertising = true
    ∧ (send_data st data txFails).2 = [] := by
  unfold send_data
  rw [h]
  exact ⟨rfl, rfl, rfl, rfl, rfl⟩

/-- Witness for C4 at a concrete disconnected state. -/
theorem send_data_disconnected_witness :
    (send_data ⟨[1], none, false, false, 0⟩ [2, 3] (fun _ => false)).1.buffer = [1, 2, 3]
    ∧ (send_data ⟨[1], none, false, false, 0⟩ [2, 3] (fun _ => false)).1.enableCalls = 1
    ∧ (send_data ⟨[1], none, false, false, 0⟩ [2, 3] (fun _ => false)).1.active = true
    ∧ (send_data ⟨[1], none, false, false, 0⟩ [2, 3] (fun _ => false)).1.advertising = true
    ∧ (send_data ⟨[1], none, false, false, 0⟩ [2, 3] (fun _ => false)).2 = [] :=
  send_data_disconnected ⟨[1], none, false, false, 0⟩ [2, 3] (fun _ => false) rfl

/-- C3: `send_data` while Connected with every transmission succeeding
serializes the full RetryBuffer content (prior buffer then incoming batch,
in order) into consecutive frames of at most 2 entries each — for 5
entries exactly the frames of sizes 2, 2, 1 in order — and afterwards the
RetryBuffer is empty and the radio is disabled. -/
theorem send_data_connected_success {α : Type} (st : BLEState α) (data : List α)
    (txFails : Nat → Bool) {hdl : Nat} (hc : st.conn_handle = some hdl)
    (hf : ∀ i, txFails i = false)
    (h5 : (st.buffer ++ data).length = 5) :
    (send_data st data txFails).2
      = [(st.buffer ++ data).take 2, ((st.buffer ++ data).drop 2).take 2,
         (st.buffer ++ data).drop 4]
    ∧ ((send_data st data txFails).2).flatten = st.buffer ++ data
    ∧ (∀ fr ∈ (send_data st data txFails).2, fr.length ≤ 2)
    ∧ (send_data st data txFails).1.buffer = []
    ∧ (send_data st data txFails).1.active = false := by
  have hsf := sendFrames_all_ok (α := α) hf 0 (chunks2 (st.buffer ++ data))
  have hout : send_data st data txFails
      = (shutdown_ble { st with buffer := [] }, chunks2 (st.buffer ++ data)) := by
    simp [send_data, hc, hsf]
  rw [hout]
  refine ⟨?_, chunks2_flatten _, chunks2_length_le _, rfl, rfl⟩
  exact chunks2_five _ h5

/-- Witness for C3: a concrete connected state with a 5-entry RetryBuffer
content is sent as frames [1,2], [3,4], [5], clearing the buffer and
disabling the radio. -/
theorem send_data_connected_success_witness :
    (send_data ⟨[1, 2, 3], some 0, true, true, 0⟩ [4, 5] (fun _ => false)).2
      = [[1, 2], [3, 4], [5]]
    ∧ ((send_data ⟨[1, 2, 3], some 0, true, true, 0⟩ [4, 5] (fun _ => false)).2).flatten
      = [1, 2, 3, 4, 5]
    ∧ (∀ fr ∈ (send_data ⟨[1, 2, 3], some 0, true, true, 0⟩ [4, 5] (fun _ => false)).2,
        fr.length ≤ 2)
    ∧ (send_data ⟨[1, 2, 3], some 0, true, true, 0⟩ [4, 5] (fun _ => false)).1.buffer = []
    ∧ (send_data ⟨[1, 2, 3], some 0, true, true, 0⟩ [4, 5] (fun _ => false)).1.active = false :=
  send_data_connected_success ⟨[1, 2, 3], some 0, true, true, 0⟩ [4, 5] (fun _ => false)
    rfl (fun _ => rfl) (by decide)

/-- C2 (counterexample): while Connected with RetryBuffer content
`[1,2,3]` and incoming batch `[4,5]` (5 entries, frames `[1,2]`, `[3,4]`,
`[5]`), if the 2nd frame's transmission raises, the RetryBuffer after the
call is `[1,2,3,4,5,4,5]` — not the 3 readings `[3,4,5]` of frames 2 and 3
that the claim states. -/
theorem send_data_midsend_failure_counterexample :
    (send_data ⟨[1, 2, 3], some 0, true, true, 0⟩ [4, 5]
        (fun i => decide (i = 1))).1.buffer = [1, 2, 3, 4, 5, 4, 5]
    ∧ (send_data ⟨[1, 2, 3], some 0, true, true, 0⟩ [4, 5]
        (fun i => decide (i = 1))).1.buffer ≠ [3, 4, 5]
    ∧ ((send_data ⟨[1, 2, 3], some 0, true, true, 0⟩ [4, 5]
        (fun i => decide (i = 1))).1.buffer).length ≠ 3 := by
  decide

/-- C2 (amended): `send_data` while Connected with a 5-entry RetryBuffer
content whose 2nd frame transmission raises transmits only the 1st frame,
leaves the RetryBuffer as the full 5 entries followed by a second copy of
the incoming batch (nothing is removed on failure; the exception handler
re-appends the incoming batch), and leaves the radio state (active flag,
connection handle, enable-call count) untouched — in particular the sink
does not disable on failure. -/
theorem send_data_midsend_failure {α : Type} (st : BLEState α) (data : List α)
    (txFails : Nat → Bool) {hdl : Nat} (hc : st.conn_handle = some hdl)
    (h5 : (st.buffer ++ data).length = 5)
    (hf0 : txFails 0 = false) (hf1 : txFails 1 = true) :
    (send_data st data txFails).2 = [(st.buffer ++ data).take 2]
    ∧ (send_data st data txFails).1.buffer = (st.buffer ++ data) ++ data
    ∧ (send_data st data txFails).1.active = st.active
    ∧ (send_data st data txFails).1.conn_handle = st.conn_handle
    ∧ (send_data st data txFails).1.enableCalls = st.enableCalls := by
  have hfr : sendFrames txFails 0 (chunks2 (st.buffer ++ data))
      = ([(st.buffer ++ data).take 2], false) := by
    rw [chunks2_five _ h5]
    simp [sendFrames, hf0, hf1]
  have hout : send_data st data txFails
      = ({ st with buffer := (st.buffer ++ data) ++ data },
         [(st.buffer ++ data).take 2]) := by
    simp [send_data, hc, hfr]
  rw [hout]
  exact ⟨rfl, rfl, rfl, hc.symm ▸ rfl, rfl⟩

/-- Witness for the amended C2 at the concrete input of the
counterexample. -/
theorem send_data_midsend_failure_witness :
    (send_data ⟨[1, 2, 3], some 0, true, true, 0⟩ [4, 5]
        (fun i => decide (i = 1))).2 = [[1, 2]]
    ∧ (send_data ⟨[1, 2, 3], some 0, true, true, 0⟩ [4, 5]
        (fun i => decide (i = 1))).1.buffer = [1, 2, 3, 4, 5, 4, 5]
    ∧ (send_data ⟨[1, 2, 3], some 0, true, true, 0⟩ [4, 5]
        (fun i => decide (i = 1))).1.active = true
    ∧ (send_data ⟨[1, 2, 3], some 0, true, true, 0⟩ [4, 5]
        (fun i => decide (i = 1))).1.conn_handle = some 0
    ∧ (send_data ⟨[1, 2, 3], some 0, true, true, 0⟩ [4, 5]
        (fun i => decide (i = 1))).1.enableCalls = 0 :=
  send_data_midsend_failure ⟨[1, 2, 3], some 0, true, true, 0⟩ [4, 5]
    (fun i => decide (i = 1)) rfl (by decide) rfl rfl

end DataSensor

namespace DataSensor

/-! ## SD-card log sink (`sd_manager.py`, `SDCardLogger`)

The filesystem is modelled as the optional list of lines of the log file
(`none` = the file does not exist yet).  Mounting is assumed to succeed
(the claims under verification do not exercise mount failure). -/

/-- A value stored in an entry's `data` field: either a Python list (CSV
formatting comma-joins it) or any other value via its string form. -/
inductive PyData where
  | lst : List String → PyData
  | scalar : String → PyData
  deriving Repr, DecidableEq

/-- One element of the `data_buffer` built by `record_data` in
`master.py`: a dict with `timestamp`, `channel`, `sensor_type` and
`data` keys. -/
structure Entry where
  timestamp : ℚ
  channel : Nat
  sensor_type : String
  data : PyData
  deriving Repr, DecidableEq

/-- `SDCardLogger._format_data`: a list is comma-joined, anything else is
stringified. -/
def format_data : PyData → String
  | .lst xs => String.intercalate "," xs
  | .scalar s => s

/-- State of `SDCardLogger`: the internal `data_buffer` of batches, the
configured device name, the timer (seconds, `timer / 1000` of the
constructor argument), and the log file's lines (`none` = absent). -/
structure SDState where
  data_buffer : List (List Entry)
  device_name : String
  timer : ℚ
  file : Option (List String)
  deriving Repr, DecidableEq

/-- The fixed header row written when the log file is created. -/
def header : String := "timestamp,channel_id,sensor_type,data"

/-- `SDCardLogger._prepare_log_file`: create the file with the header row
when it does not exist; leave it alone otherwise. -/
def prepare_log_file : Option (List String) → Option (List String)
  | none => some [header]
  | some ls => some ls

/-- Python's `int(...)` on a rational: truncation toward zero. -/
def truncQ (x : ℚ) : Int := if 0 ≤ x then ⌊x⌋ else ⌈x⌉

/-- The CSV line `log_data` writes for one entry:
`int(timestamp / timer), device_name, channel, sensor_type, data`. -/
def format_line (st : SDState) (e : Entry) : String :=
  toString (truncQ (e.timestamp / st.timer)) ++ "," ++ st.device_name ++ ","
    ++ toString e.channel ++ "," ++ e.sensor_type ++ "," ++ format_data e.data

/-- `SDCardLogger.log_data`: appends the passed batch to the internal
`data_buffer`, ensures the log file exists with its header, and appends
one formatted line per entry of the batch. -/
def log_data (st : SDState) (batch : List Entry) : SDState :=
  let st1 := { st with data_buffer := st.data_buffer ++ [batch] }
  let file1 := (prepare_log_file st1.file).getD []
  { st1 with file := some (file1 ++ batch.map (format_line st1)) }

/-- `SDCardLogger.clear_buffer` (defined by the source but never called by
the recording loop). -/
def clear_buffer (st : SDState) : SDState := { st with data_buffer := [] }

/-- The flush branch of `record_data` in `master.py` (taken every 60 s):
log the live buffer to the SD card, send it over BLE, and clear the live
buffer.  `clear_buffer` is never invoked. -/
def flush (sd : SDState) (ble : BLEState Entry) (live : List Entry)
    (txFails : Nat → Bool) : SDState × BLEState Entry × List Entry :=
  (log_data sd live, (send_data ble live txFails).1, [])

/-- C8: appending the same batch twice to a freshly created file yields
exactly one header line followed by one line per Reading of each append —
`2 * len(batch)` data lines in total. -/
theorem log_data_twice_fresh (st : SDState) (batch : List Entry)
    (h : st.file = none) :
    (log_data (log_data st batch) batch).file
      = some (header :: (batch.map (format_line st) ++ batch.map (format_line st)))
    ∧ (((log_data (log_data st batch) batch).file).getD []).length
      = 1 + 2 * batch.length := by
  have h1 : (log_data (log_data st batch) batch).file
      = some (header :: (batch.map (format_line st) ++ batch.map (format_line st))) := by
    simp only [log_data, prepare_log_file, h]
    rfl
  refine ⟨h1, ?_⟩
  rw [h1]
  simp [List.length_append, List.length_map]
  omega

/-- Witness for C8: a concrete one-entry batch appended twice to a fresh
file gives one header line and two data lines. -/
theorem log_data_twice_fresh_witness :
    (log_data (log_data ⟨[], "ESP32-SensorData-1", 30, none⟩ [⟨0, 0, "O2", .scalar "20.9"⟩])
        [⟨0, 0, "O2", .scalar "20.9"⟩]).file
      = some (header
          :: ([⟨0, 0, "O2", .scalar "20.9"⟩].map
                (format_line ⟨[], "ESP32-SensorData-1", 30, none⟩)
              ++ [⟨(0 : ℚ), 0, "O2", .scalar "20.9"⟩].map
                (format_line ⟨[], "ESP32-SensorData-1", 30, none⟩)))
    ∧ (((log_data (log_data ⟨[], "ESP32-SensorData-1", 30, none⟩
          [⟨0, 0, "O2", .scalar "20.9"⟩]) [⟨0, 0, "O2", .scalar "20.9"⟩]).file).getD []).length
      = 3 :=
  log_data_twice_fresh ⟨[], "ESP32-SensorData-1", 30, none⟩ [⟨0, 0, "O2", .scalar "20.9"⟩] rfl

/-- C10: every `log_data` call appends the passed batch to the internal
`data_buffer`; the recording loop's flush step does so as well (and never
invokes `clear_buffer`, clearing only the live batch); hence over any
sequence of flushed batches the internal buffer grows by one entry per
flush and is never emptied. -/
theorem sd_data_buffer_grows :
    (∀ (st : SDState) (b : List Entry),
      (log_data st b).data_buffer = st.data_buffer ++ [b])
    ∧ (∀ (sd : SDState) (ble : BLEState Entry) (live : List Entry) (f : Nat → Bool),
      ((flush sd ble live f).1).data_buffer = sd.data_buffer ++ [live]
      ∧ (flush sd ble live f).2.2 = [])
    ∧ (∀ (st : SDState) (bs : List (List Entry)),
      (bs.foldl log_data st).data_buffer = st.data_buffer ++ bs
      ∧ ((bs.foldl log_data st).data_buffer).length
        = st.data_buffer.length + bs.length) := by
  have hgrow : ∀ (st : SDState) (bs : List (List Entry)),
      (bs.foldl log_data st).data_buffer = st.data_buffer ++ bs := by
    intro st bs
    induction bs generalizing st with
    | nil => simp
    | cons b tl ih =>
      rw [List.foldl_cons, ih (log_data st b)]
      simp [log_data]
  refine ⟨fun st b => rfl, fun sd ble live f => ⟨rfl, rfl⟩, fun st bs => ⟨hgrow st bs, ?_⟩⟩
  rw [hgrow st bs]
  simp

end DataSensor

namespace DataSensor

/-! ## Acquisition scheduler (`master.py`, `record_data`)

One pass of the per-channel loop.  MicroPython's `time.ticks_ms` wraps at
`TICKS_PERIOD = 2^30` and `time.ticks_diff(a, b)` is the signed modular
difference.  The source compares the elapsed time against the global
`sampling_timer` (30000 ms in `master.py`), not against the channel's own
`info["interval"]` — the per-channel `interval` field is stored but never
read by the loop. -/

/-- MicroPython `time.ticks_diff`: signed wraparound difference modulo
`2^30`. -/
def ticks_diff (a b : Nat) : Int :=
  ((a : Int) - (b : Int) + 2 ^ 29) % 2 ^ 30 - 2 ^ 29

/-- One entry of `channel_maps`: sensor kind, configured sampling interval
(ms) and the timestamp of the last visit (ms). -/
structure ChannelInfo where
  sensor_type : String
  interval : Nat
  last : Nat
  deriving Repr, DecidableEq

/-- The per-channel body of the scan loop in `record_data`: the channel is
visited (multiplexer selected, sensor read, `info["last"]` set to the
current tick) exactly when `ticks_diff(current, last) >= sampling_timer`;
the per-channel `interval` plays no role.  Returns the updated channel
info and whether the channel was visited (one Reading appended). -/
def scanChannel (sampling_timer current : Nat) (info : ChannelInfo) :
    ChannelInfo × Bool :=
  if ticks_diff current info.last ≥ (sampling_timer : Int) then
    ({ info with last := current }, true)
  else (info, false)

/-- One full pass of the channel loop: every channel is scanned in order;
the returned list of channel ids records, in order, the channels visited
(each of which appends exactly one Reading to the live batch). -/
def tickChannels (sampling_timer current : Nat) :
    List (Nat × ChannelInfo) → List (Nat × ChannelInfo) × List Nat
  | [] => ([], [])
  | (ch, info) :: rest =>
    let (i2, visited) := scanChannel sampling_timer current info
    let (rest2, vs) := tickChannels sampling_timer current rest
    ((ch, i2) :: rest2, (if visited then [ch] else []) ++ vs)

/-- C1 (failing input): with the configuration of `master.py`
(`sampling_timer = 30000`) and a channel with `interval_ms = 5000`,
`last_sample_ms = 0`, at the tick `current = 5000` the elapsed time equals
the channel's configured interval, yet the channel is not visited and its
`last` timestamp does not advance — the scan compares against the global
`sampling_timer`, and only a tick with elapsed ≥ 30000 visits the
channel. -/
theorem scheduler_compares_global_timer_not_interval :
    ticks_diff 5000 0 = 5000
    ∧ ticks_diff 5000 0 ≥ ((5000 : Nat) : Int)
    ∧ scanChannel 30000 5000 ⟨"SCD40Sensor", 5000, 0⟩ = (⟨"SCD40Sensor", 5000, 0⟩, false)
    ∧ tickChannels 30000 5000 [(1, ⟨"SCD40Sensor", 5000, 0⟩)]
      = ([(1, ⟨"SCD40Sensor", 5000, 0⟩)], [])
    ∧ scanChannel 30000 30000 ⟨"SCD40Sensor", 5000, 0⟩
      = (⟨"SCD40Sensor", 5000, 30000⟩, true) := by
  decide

end DataSensor

namespace DataSensor

namespace GravitySensor

/-! ## Dissolved-oxygen driver (`sensors.py`, `GravitySensor`)

I2C traffic is modelled by a bus oracle `Bus : reg → length → bytes`;
every embedded operation also returns the list of `(register, length)`
transactions it issued, so "short-circuits without issuing any hardware
transaction" is provable.  A sequence of `read` calls is driven by a
call-indexed family of bus oracles. -/

/-- Capacity of the circular history (`MAX_BUFFER_SIZE = 101`). -/
def MAX_BUFFER_SIZE : Nat := 101

/-- The calibration-key register (`GET_KEY_REGISTER = 0x0A`). -/
def GET_KEY_REGISTER : Nat := 0x0A

/-- The oxygen-data register (`OXYGEN_DATA_REGISTER = 0x03`). -/
def OXYGEN_DATA_REGISTER : Nat := 0x03

/-- Driver state: calibration key `_key`, bounded sample count `_count`,
and the history buffer `_oxygendata` (a list of length 101). -/
structure GravState where
  key : ℚ
  count : Nat
  oxygendata : List ℚ
  deriving Repr, DecidableEq

/-- The state `GravitySensor.__init__` builds: `_key = 20.9 / 120.0`,
`_count = 0`, `_oxygendata = [0.0] * MAX_BUFFER_SIZE`. -/
def gravInit : GravState :=
  { key := (209 : ℚ) / 1200, count := 0, oxygendata := List.replicate MAX_BUFFER_SIZE 0 }

/-- A register-read oracle: `bus reg len` is the byte list the I2C read of
`len` bytes from register `reg` returns. -/
abbrev Bus := Nat → Nat → List Nat

/-- `GravitySensor.get_flash`: reads one byte from the calibration-key
register and sets `_key` to `20.9 / 120.0` when it is zero and to
`value / 1000` otherwise.  Also returns the transaction issued. -/
def get_flash (bus : Bus) (st : GravState) : GravState × List (Nat × Nat) :=
  let result := bus GET_KEY_REGISTER 1
  let value := result.getD 0 0
  ({ st with key := if value = 0 then (209 : ℚ) / 1200 else (value : ℚ) / 1000 },
   [(GET_KEY_REGISTER, 1)])

/-- The shift loop of `get_oxygen_data`:
`for i in range(collect_num - 1, 0, -1): data[i] = data[i - 1]` —
`copyDown k` performs the iterations `i = k, k-1, ..., 1`. -/
def copyDown : Nat → List ℚ → List ℚ
  | 0, l => l
  | k + 1, l => copyDown k (l.set (k + 1) (l.getD k 0))

/-- `GravitySensor._average`: `sum(array[:length]) / float(length)`. -/
def average (array : List ℚ) (len : Nat) : ℚ :=
  (array.take len).sum / (len : ℚ)

/-- `GravitySensor.get_oxygen_data`: returns `-1.0` (the driver's
domain-error sentinel) without touching the bus when `collect_num` is
outside `(0, MAX_BUFFER_SIZE]`; otherwise refreshes the key, shifts the
history window, reads the 3-byte raw frame, computes
`key * (b0 + b1/10 + b2/100)`, inserts it at the front, bumps the bounded
count and returns the average of the first `count` entries.  The third
component lists the hardware transactions issued. -/
def get_oxygen_data (bus : Bus) (st : GravState) (collect_num : Int) :
    GravState × ℚ × List (Nat × Nat) :=
  if collect_num ≤ 0 ∨ (MAX_BUFFER_SIZE : Int) < collect_num then (st, -1, [])
  else
    let n := collect_num.toNat
    let p := get_flash bus st
    let shifted := copyDown (n - 1) p.1.oxygendata
    let result := bus OXYGEN_DATA_REGISTER 3
    let val := p.1.key * ((result.getD 0 0 : ℚ) + (result.getD 1 0 : ℚ) / 10
      + (result.getD 2 0 : ℚ) / 100)
    let data2 := shifted.set 0 val
    let count2 := min (p.1.count + 1) n
    ({ p.1 with oxygendata := data2, count := count2 },
     average data2 count2, p.2 ++ [(OXYGEN_DATA_REGISTER, 3)])

/-- The calibration key a call refreshed from the given bus: the fallback
ratio `20.9 / 120.0` when the register reads zero, else `value / 1000`. -/
def keyOf (bus : Bus) : ℚ :=
  if (bus GET_KEY_REGISTER 1).getD 0 0 = 0 then (209 : ℚ) / 1200
  else ((bus GET_KEY_REGISTER 1).getD 0 0 : ℚ) / 1000

/-- The calibrated sample a call computes from the given bus:
`key * (b0 + b1/10 + b2/100)` over the 3-byte raw frame. -/
def sampleOf (bus : Bus) : ℚ :=
  keyOf bus * (((bus OXYGEN_DATA_REGISTER 3).getD 0 0 : ℚ)
    + ((bus OXYGEN_DATA_REGISTER 3).getD 1 0 : ℚ) / 10
    + ((bus OXYGEN_DATA_REGISTER 3).getD 2 0 : ℚ) / 100)

/-- The driver state after `n` successive `get_oxygen_data` calls with the
same `collect_num`, call `i` reading from bus oracle `busSeq i`. -/
def runReads (busSeq : Nat → Bus) (c : Int) : Nat → GravState
  | 0 => gravInit
  | n + 1 => (get_oxygen_data (busSeq n) (runReads busSeq c n) c).1

lemma copyDown_length : ∀ (k : Nat) (l : List ℚ), (copyDown k l).length = l.length
  | 0, _ => rfl
  | k + 1, l => by rw [copyDown, copyDown_length k, List.length_set]

/-- Pointwise description of the shift loop: entries `1..k` take their
left neighbour's value, all others are untouched. -/
lemma copyDown_getD : ∀ (k : Nat), ∀ (l : List ℚ), k < l.length → ∀ (i : Nat),
    (copyDown k l).getD i 0
      = if 1 ≤ i ∧ i ≤ k then l.getD (i - 1) 0 else l.getD i 0
  | 0, l, _, i => by
    rw [show copyDown 0 l = l from rfl, if_neg (by omega : ¬ (1 ≤ i ∧ i ≤ 0))]
  | k + 1, l, hk, i => by
    rw [copyDown]
    rw [copyDown_getD k _ (by rw [List.length_set]; omega) i]
    by_cases hi : 1 ≤ i ∧ i ≤ k
    · rw [if_pos hi, if_pos ⟨hi.1, by omega⟩]
      simp [List.getD_eq_getElem?_getD,
        List.getElem?_set_ne (by omega : k + 1 ≠ i - 1)]
    · rw [if_neg hi]
      by_cases he : i = k + 1
      · subst he
        rw [if_pos ⟨by omega, le_refl _⟩]
        have hk1 : k + 1 - 1 = k := by omega
        rw [hk1]
        simp [List.getD_eq_getElem?_getD, List.getElem?_set_self (by omega : k + 1 < l.length)]
      · rw [if_neg (by omega)]
        simp [List.getD_eq_getElem?_getD, List.getElem?_set_ne (by omega : k + 1 ≠ i)]

/-- The sum of the first `m` entries of a list whose entries are described
by `f`. -/
lemma sum_take_eq : ∀ (m : Nat) (l : List ℚ) (f : Nat → ℚ), m ≤ l.length →
    (∀ j < m, l.getD j 0 = f j) → (l.take m).sum = ∑ j in Finset.range m, f j := by
  intro m
  induction m with
  | zero => intro l f _ _; simp
  | succ m ih =>
    intro l f hm h
    have hl : m < l.length := by omega
    rw [List.take_succ, List.sum_append, Finset.sum_range_succ,
      ih l f (by omega) (fun j hj => h j (by omega))]
    congr 1
    have hsome : l[m]? = some l[m] := List.getElem?_eq_getElem hl
    have hval : l[m] = f m := by
      have := h m (by omega)
      rw [List.getD_eq_getElem?_getD, hsome] at this
      simpa using this
    rw [hsome]
    simpa using hval

/-- Closed form of one in-range `get_oxygen_data` call. -/
lemma get_oxygen_data_step (bus : Bus) (st : GravState) (c : Int)
    (h0 : 0 < c) (h1 : c ≤ 101) :
    get_oxygen_data bus st c
      = (⟨keyOf bus, min (st.count + 1) c.toNat,
          (copyDown (c.toNat - 1) st.oxygendata).set 0 (sampleOf bus)⟩,
         average ((copyDown (c.toNat - 1) st.oxygendata).set 0 (sampleOf bus))
           (min (st.count + 1) c.toNat),
         [(GET_KEY_REGISTER, 1), (OXYGEN_DATA_REGISTER, 3)]) := by
  unfold get_oxygen_data
  rw [if_neg (by norm_num [MAX_BUFFER_SIZE]; omega)]
  rfl

/-- Invariant of the read sequence: after `n` calls the bounded count is
`min n collect_num` and the first `min n collect_num` history entries are
the calibrated samples of the most recent calls, newest first. -/
lemma runReads_spec (busSeq : Nat → Bus) (c : Int) (h0 : 0 < c) (h1 : c ≤ 101) :
    ∀ n, (runReads busSeq c n).count = min n c.toNat
      ∧ (runReads busSeq c n).oxygendata.length = 101
      ∧ ∀ j < min n c.toNat,
          (runReads busSeq c n).oxygendata.getD j 0 = sampleOf (busSeq (n - 1 - j)) := by
  intro n
  induction n with
  | zero =>
    refine ⟨by simp [runReads, gravInit], by simp [runReads, gravInit, MAX_BUFFER_SIZE], ?_⟩
    intro j hj
    simp at hj
  | succ n ih =>
    obtain ⟨ihc, ihl, ihd⟩ := ih
    have hstep := get_oxygen_data_step (busSeq n) (runReads busSeq c n) c h0 h1
    have hrun : runReads busSeq c (n + 1)
        = (get_oxygen_data (busSeq n) (runReads busSeq c n) c).1 := rfl
    refine ⟨?_, ?_, ?_⟩
    · rw [hrun, hstep]
      simp only [ihc]
      omega
    · rw [hrun, hstep]
      rw [List.length_set, copyDown_length, ihl]
    · intro j hj
      rw [hrun, hstep]
      simp only
      have hcount : min (n + 1) c.toNat = min (min n c.toNat + 1) c.toNat := by omega
      rw [hcount] at hj
      by_cases hj0 : j = 0
      · subst hj0
        rw [List.getD_eq_getElem?_getD,
          List.getElem?_set_self (by rw [copyDown_length, ihl]; omega)]
        simp
      · have hj1 : 1 ≤ j := by omega
        rw [List.getD_eq_getElem?_getD, List.getElem?_set_ne (by omega : 0 ≠ j),
          ← List.getD_eq_getElem?_getD,
          copyDown_getD (c.toNat - 1) _ (by rw [ihl]; omega) j,
          if_pos ⟨hj1, by omega⟩]
        have hjm : j - 1 < min n c.toNat := by omega
        rw [ihd (j - 1) hjm,
          show n - 1 - (j - 1) = n + 1 - 1 - j from by omega]

end GravitySensor

end DataSensor

namespace DataSensor

namespace GravitySensor

/-- C5: for `collect_num` outside `(0, 101]`, `get_oxygen_data` returns
the domain-error sentinel `-1.0`, leaves the state untouched and issues no
hardware transaction; for every `collect_num` in `(0, 101]` the `n+1`-th
call of a read sequence returns the arithmetic mean of the most recent
`min(count_so_far, collect_num)` calibrated samples, each computed as
`key * (b0 + b1/10 + b2/100)` with `key` falling back to `20.9/120.0` when
the calibration register reads zero (see `sampleOf`/`keyOf`). -/
theorem get_oxygen_data_spec :
    (∀ (bus : Bus) (st : GravState) (c : Int), (c ≤ 0 ∨ 101 < c) →
      get_oxygen_data bus st c = (st, -1, []))
    ∧ (∀ (busSeq : Nat → Bus) (c : Int), 0 < c → c ≤ 101 → ∀ n : Nat,
      (get_oxygen_data (busSeq n) (runReads busSeq c n) c).2.1
        = (∑ j in Finset.range (min (n + 1) c.toNat), sampleOf (busSeq (n - j)))
          / ((min (n + 1) c.toNat : Nat) : ℚ)) := by
  constructor
  · intro bus st c h
    unfold get_oxygen_data
    rw [if_pos (by norm_num [MAX_BUFFER_SIZE]; omega)]
  · intro busSeq c h0 h1 n
    have hres : (get_oxygen_data (busSeq n) (runReads busSeq c n) c).2.1
        = average ((runReads busSeq c (n + 1)).oxygendata)
            ((runReads busSeq c (n + 1)).count) := by
      rw [show runReads busSeq c (n + 1)
          = (get_oxygen_data (busSeq n) (runReads busSeq c n) c).1 from rfl,
        get_oxygen_data_step _ _ _ h0 h1]
    obtain ⟨hc1, hl1, hd1⟩ := runReads_spec busSeq c h0 h1 (n + 1)
    rw [hres]
    unfold average
    rw [hc1]
    congr 1
    apply sum_take_eq
    · rw [hl1]; omega
    · intro j hj
      rw [hd1 j hj, show n + 1 - 1 - j = n - j from by omega]

/-- Witness for C5: `collect_num = 102` and `collect_num = 0` fail with
the sentinel and no transaction; with `collect_num = 3` the first call of
a concrete read sequence returns the claimed mean. -/
theorem get_oxygen_data_spec_witness :
    get_oxygen_data (fun reg _ => if reg = GET_KEY_REGISTER then [0] else [20, 9, 5])
        gravInit 102 = (gravInit, -1, [])
    ∧ get_oxygen_data (fun reg _ => if reg = GET_KEY_REGISTER then [0] else [20, 9, 5])
        gravInit 0 = (gravInit, -1, [])
    ∧ (get_oxygen_data
        ((fun _ => fun reg _ => if reg = GET_KEY_REGISTER then [0] else [20, 9, 5]) 0)
        (runReads (fun _ => fun reg _ => if reg = GET_KEY_REGISTER then [0] else [20, 9, 5])
          3 0) 3).2.1
      = (∑ j in Finset.range (min (0 + 1) (3 : Int).toNat),
          sampleOf ((fun _ => fun reg _ =>
            if reg = GET_KEY_REGISTER then [0] else [20, 9, 5]) (0 - j)))
        / ((min (0 + 1) (3 : Int).toNat : Nat) : ℚ) :=
  ⟨get_oxygen_data_spec.1 _ gravInit 102 (Or.inr (by norm_num)),
   get_oxygen_data_spec.1 _ gravInit 0 (Or.inl (by norm_num)),
   get_oxygen_data_spec.2 _ 3 (by norm_num) (by norm_num) 0⟩

end GravitySensor

end DataSensor
